import Mathlib

/-!
Verification development for the UMKM sales & stock management server.

The TypeScript server keeps three tables (products, sales_transactions,
sales_transaction_items) behind tRPC handlers.  We embed the data model and
the handlers shallowly:

* monetary values (numeric columns with fixed 2-decimal precision, parsed
  with `parseFloat` at each read) are modelled exactly, as integer amounts
  of cents (`Int`), the granularity of the stored decimals;
* integer columns (`stock_quantity`, `quantity`, ids) as `Int`;
* timestamps as `Int` milliseconds since the Unix epoch (the JS `Date`
  value), calendar dates as a `year/month/day` record with JavaScript's
  0-based months;
* a thrown exception before any write, and the transactional rollback of the
  sale-commit engine, are modelled by the handler returning the error
  together with the unchanged store.

Handlers present in the source (`update_stock.ts`, `update_product.ts`,
`get_low_stock_items.ts`, `get_sales_report.ts`) are translated line by
line.  The handlers `create_product.ts` and `create_sales_transaction.ts`
are imported by `index.ts` and exercised by the test-suite but their
implementation files are not part of the source tree; they are modelled
from the specification (§4.1 of the spec) and marked as such in their doc
comments.
-/

/-- A row of the `products` table (`schema.ts`: `productSchema`).
`price` is the numeric(10,2) column read back as a number, modelled in
cents; `created_at` and `updated_at` are timestamps in epoch
milliseconds. -/
structure Product where
  id : Int
  name : String
  description : Option String
  price : Int
  stock_quantity : Int
  min_stock_threshold : Int
  created_at : Int
  updated_at : Int
deriving Repr, DecidableEq

/-- A row of the `sales_transactions` table (`schema.ts`:
`salesTransactionSchema`).  `transaction_date` is the timestamp in epoch
milliseconds. -/
structure SalesTransaction where
  id : Int
  transaction_date : Int
  total_amount : Int
  notes : Option String
  created_at : Int
deriving Repr, DecidableEq

/-- A row of the `sales_transaction_items` table (`schema.ts`:
`salesTransactionItemSchema`): product name and unit price are snapshots
taken at sale time. -/
structure SalesTransactionItem where
  id : Int
  transaction_id : Int
  product_id : Int
  product_name : String
  quantity : Int
  unit_price : Int
  subtotal : Int
  created_at : Int
deriving Repr, DecidableEq

/-- The relational store: the three tables plus the serial-id counters the
database maintains for surrogate keys. -/
structure Store where
  products : List Product
  transactions : List SalesTransaction
  items : List SalesTransactionItem
  nextProductId : Int
  nextTransactionId : Int
  nextItemId : Int
deriving Repr, DecidableEq

/-- The distinguishable error values thrown by the handlers (§7 of the
spec; the `throw new Error(...)` sites of the handlers). -/
inductive StoreError where
  /-- `update_stock.ts` / `update_product.ts`: product id absent. -/
  | productNotFound (id : Int)
  /-- `update_stock.ts`: `Insufficient stock. Current stock: _, attempted change: _`. -/
  | insufficientStockAdjust (current_stock : Int) (attempted_change : Int)
  /-- Sale commit: one or more requested product ids absent; carries every
  missing id. -/
  | productsNotFound (missing_ids : List Int)
  /-- Sale commit: requested quantity exceeds available stock. -/
  | insufficientStockSale (product_name : String) (available : Int) (requested : Int)
  /-- Sale commit: empty item list. -/
  | emptyItemList
deriving Repr, DecidableEq

/-- Decidable equality of handler results, for evaluating the model on
concrete inputs. -/
instance exceptDecEq {E A : Type} [DecidableEq E] [DecidableEq A] :
    DecidableEq (Except E A) := fun x y =>
  match x, y with
  | .ok a, .ok b => if h : a = b then isTrue (by rw [h]) else isFalse (by simp [h])
  | .ok _, .error _ => isFalse (by simp)
  | .error _, .ok _ => isFalse (by simp)
  | .error e, .error f => if h : e = f then isTrue (by rw [h]) else isFalse (by simp [h])

/-- Input of `updateStock` (`update_stock.ts`: `UpdateStockInput`): the
optional `reason` is accepted for caller bookkeeping. -/
structure UpdateStockInput where
  product_id : Int
  quantity_change : Int
  reason : Option String
deriving Repr, DecidableEq

/-- `update_stock.ts`: fetch the product (`SELECT ... WHERE id = ?`), throw
`productNotFound` if absent; compute `new_stock`; throw
`insufficientStockAdjust` (before any write) when it is negative; otherwise
persist the new stock together with a fresh `updated_at` timestamp and
return the updated product.  `now` is the value of `new Date()`.  The
returned store is the database state after the call: unchanged whenever an
error is thrown. -/
def updateStock (input : UpdateStockInput) (now : Int) (s : Store) :
    Except StoreError Product × Store :=
  match s.products.find? (fun p => p.id == input.product_id) with
  | none => (.error (.productNotFound input.product_id), s)
  | some existingProduct =>
    let newStockQuantity := existingProduct.stock_quantity + input.quantity_change
    if newStockQuantity < 0 then
      (.error (.insufficientStockAdjust existingProduct.stock_quantity input.quantity_change), s)
    else
      let updatedProduct :=
        { existingProduct with stock_quantity := newStockQuantity, updated_at := now }
      (.ok updatedProduct,
       { s with products :=
          s.products.map (fun p => if p.id == input.product_id then updatedProduct else p) })

/-- An element of the `getLowStockItems` response (`schema.ts`:
`lowStockItemSchema`). -/
structure LowStockItem where
  id : Int
  name : String
  current_stock : Int
  min_stock_threshold : Int
  difference : Int
deriving Repr, DecidableEq

/-- The row `get_low_stock_items.ts` selects for a product: stock, threshold
and the computed column `min_stock_threshold - stock_quantity`. -/
def toLowStockItem (p : Product) : LowStockItem :=
  { id := p.id
    name := p.name
    current_stock := p.stock_quantity
    min_stock_threshold := p.min_stock_threshold
    difference := p.min_stock_threshold - p.stock_quantity }

/-- The `ORDER BY (min_stock_threshold - stock_quantity) DESC` order:
`a` may come before `b` when its difference is at least as large. -/
def lowStockGe (a b : LowStockItem) : Prop :=
  b.difference ≤ a.difference

instance : DecidableRel lowStockGe := fun a b => by
  unfold lowStockGe; infer_instance

instance : IsTotal LowStockItem lowStockGe :=
  ⟨fun a b => le_total b.difference a.difference⟩

instance : IsTrans LowStockItem lowStockGe :=
  ⟨fun _ _ _ h1 h2 => le_trans h2 h1⟩

/-- `get_low_stock_items.ts`: select every product with
`stock_quantity <= min_stock_threshold`, compute
`difference = min_stock_threshold - stock_quantity`, order descending by
that difference (most critical first). -/
def getLowStockItems (s : Store) : List LowStockItem :=
  ((s.products.filter (fun p => p.stock_quantity ≤ p.min_stock_threshold)).map
      toLowStockItem).insertionSort lowStockGe

/-- A calendar date as JavaScript's `Date` exposes it: `month` is 0-based
(January = 0), `day` is 1-based (`getDate()`). -/
structure Date where
  year : Int
  month : Int
  day : Int
deriving Repr, DecidableEq

/-- Gregorian leap-year test. -/
def isLeap (y : Int) : Bool :=
  y.emod 4 == 0 && (y.emod 100 != 0 || y.emod 400 == 0)

/-- Number of days of month `m` (0-based) of year `y`. -/
def daysInMonth (y m : Int) : Int :=
  if m == 1 then (if isLeap y then 29 else 28)
  else if m == 3 || m == 5 || m == 8 || m == 10 then 30
  else 31

/-- Days since 1970-01-01 of the civil date `⟨y, m, d⟩` (`m` 0-based, `d`
need not be in range: day 0 is the last day of the previous month, etc.),
computed with the standard era decomposition of the Gregorian calendar. -/
def rataOfDate (dt : Date) : Int :=
  let y := dt.year - (if dt.month ≤ 1 then 1 else 0)
  let era := y.ediv 400
  let yoe := y - era * 400
  let mp := (dt.month + 10).emod 12
  let doy := (153 * mp + 2).ediv 5 + dt.day - 1
  let doe := yoe * 365 + yoe.ediv 4 - yoe.ediv 100 + doy
  era * 146097 + doe - 719468

/-- Civil date of a day count since 1970-01-01 (inverse of `rataOfDate` on
in-range dates); month is returned 0-based. -/
def dateOfRata (z0 : Int) : Date :=
  let z := z0 + 719468
  let era := z.ediv 146097
  let doe := z - era * 146097
  let yoe := (doe - doe.ediv 1460 + doe.ediv 36524 - doe.ediv 146096).ediv 365
  let y := yoe + era * 400
  let doy := doe - (365 * yoe + yoe.ediv 4 - yoe.ediv 100)
  let mp := (5 * doy + 2).ediv 153
  let d := doy - (153 * mp + 2).ediv 5 + 1
  let m := mp + (if mp < 10 then 2 else -10)
  { year := y + (if m ≤ 1 then 1 else 0), month := m, day := d }

/-- The date obtained by setting the fields `(y, m, d)` on a JS `Date` with
`m` already in `[0, 11]`: an out-of-range day-of-month rolls over into
adjacent months exactly as `Date.prototype.setDate` does. -/
def mkJsDate (y m d : Int) : Date :=
  dateOfRata (rataOfDate { year := y, month := m, day := 1 } + (d - 1))

/-- `d.setDate(n)`: replace the day-of-month, normalising overflow. -/
def jsSetDate (dt : Date) (n : Int) : Date :=
  mkJsDate dt.year dt.month n

/-- `d.setMonth(m)`: replace the month (normalising `m ≥ 12` into later
years) keeping the day-of-month, normalising day overflow. -/
def jsSetMonth (dt : Date) (m : Int) : Date :=
  mkJsDate (dt.year + m.ediv 12) (m.emod 12) dt.day

/-- `d.setFullYear(y)`: replace the year keeping month and day-of-month,
normalising day overflow (Feb 29 → Mar 1 in a non-leap year). -/
def jsSetFullYear (dt : Date) (y : Int) : Date :=
  mkJsDate y dt.month dt.day

/-- Milliseconds per day. -/
def msPerDay : Int := 86400000

/-- The timestamp of `new Date("YYYY-MM-DD")`: midnight UTC of the date. -/
def startOfDayMs (dt : Date) : Int := rataOfDate dt * msPerDay

/-- The timestamp after `setHours(23, 59, 59, 999)`: the last millisecond
of the date. -/
def endOfDayMs (dt : Date) : Int := rataOfDate dt * msPerDay + (msPerDay - 1)

/-- The report period enum (`schema.ts`: `salesReportPeriodSchema`). -/
inductive ReportPeriod where
  | daily | weekly | monthly | yearly
deriving Repr, DecidableEq

/-- Input of `getSalesReport` (`schema.ts`: `salesReportInputSchema`), with
the `YYYY-MM-DD` strings already parsed into calendar dates. -/
structure SalesReportInput where
  period : ReportPeriod
  start_date : Date
  end_date : Option Date
deriving Repr, DecidableEq

/-- The end date `get_sales_report.ts` resolves when `end_date` is omitted:
`daily` keeps the start date; `weekly` runs `setDate(getDate() + 6)`;
`monthly` runs `setMonth(getMonth() + 1)` then `setDate(0)`; `yearly` runs
`setFullYear(getFullYear() + 1)` then `setDate(0)`.  (All four branches
then run `setHours(23, 59, 59, 999)`, which only fixes the time of day.) -/
def resolveEndDate (input : SalesReportInput) : Date :=
  match input.end_date with
  | some e => e
  | none =>
    match input.period with
    | .daily => input.start_date
    | .weekly => jsSetDate input.start_date (input.start_date.day + 6)
    | .monthly => jsSetDate (jsSetMonth input.start_date (input.start_date.month + 1)) 0
    | .yearly => jsSetDate (jsSetFullYear input.start_date (input.start_date.year + 1)) 0

/-- The end date the specification derives when `end_date` is omitted:
daily → same day; weekly → start + 6 days; monthly → last calendar day of
the start date's month; yearly → last calendar day of the start date's
year (each at end of day). -/
def specEndDate (input : SalesReportInput) : Date :=
  match input.end_date with
  | some e => e
  | none =>
    match input.period with
    | .daily => input.start_date
    | .weekly => dateOfRata (rataOfDate input.start_date + 6)
    | .monthly =>
        { year := input.start_date.year, month := input.start_date.month
          day := daysInMonth input.start_date.year input.start_date.month }
    | .yearly => { year := input.start_date.year, month := 11, day := 31 }

/-- One entry of the bucketed series (`schema.ts`: `salesReportItemSchema`),
with the `YYYY-MM-DD` string kept as a calendar date. -/
structure SalesReportItem where
  date : Date
  total_transactions : Int
  total_revenue : Int
  total_items_sold : Int
deriving Repr, DecidableEq

/-- The summary block of a report (`schema.ts`: `salesReportSchema`). -/
structure SalesReportSummary where
  total_transactions : Int
  total_revenue : Int
  total_items_sold : Int
  average_transaction_value : Rat
deriving Repr, DecidableEq

/-- The full report (`schema.ts`: `salesReportSchema`), without the echoed
input fields. -/
structure SalesReport where
  summary : SalesReportSummary
  data : List SalesReportItem
deriving Repr, DecidableEq

/-- The rows of
`FROM sales_transactions st INNER JOIN sales_transaction_items sti ON
st.id = sti.transaction_id WHERE st.transaction_date >= start AND
st.transaction_date <= end`: one row per qualifying line item, paired with
its transaction header. -/
def qualifyingRows (s : Store) (startMs endMs : Int) :
    List (SalesTransaction × SalesTransactionItem) :=
  (s.transactions.filter
      (fun t => startMs ≤ t.transaction_date ∧ t.transaction_date ≤ endMs)).flatMap
    (fun t => (s.items.filter (fun i => i.transaction_id == t.id)).map (fun i => (t, i)))

/-- `DATE_TRUNC` of a transaction timestamp for the requested period, as a
day count: `daily` truncates to the calendar day, `weekly` to the Monday of
the timestamp's ISO week (PostgreSQL `DATE_TRUNC('week', ...)`), `monthly`
to the first of the month, `yearly` to January 1. -/
def bucketKey (p : ReportPeriod) (ms : Int) : Int :=
  let r := ms.ediv msPerDay
  match p with
  | .daily => r
  | .weekly => r - (r + 3).emod 7
  | .monthly => let d := dateOfRata r; rataOfDate { year := d.year, month := d.month, day := 1 }
  | .yearly => let d := dateOfRata r; rataOfDate { year := d.year, month := 0, day := 1 }

/-- Ascending order on day counts (the `ORDER BY period_date ASC`). -/
def rataLe (a b : Int) : Prop := a ≤ b

instance : DecidableRel rataLe := fun a b => by
  unfold rataLe; infer_instance

instance : IsTotal Int rataLe := ⟨fun a b => le_total a b⟩

instance : IsTrans Int rataLe := ⟨fun _ _ _ h1 h2 => le_trans h1 h2⟩

/-- `get_sales_report.ts`: the whole handler over the resolved `[startMs,
endMs]` timestamp range.  The summary query computes
`COUNT(DISTINCT st.id)`, `COALESCE(SUM(DISTINCT st.total_amount), 0)` —
note: distinct **amounts**, not distinct transactions — and
`COALESCE(SUM(sti.quantity), 0)` over the inner join, and divides revenue
by the transaction count for the average (0 when there are no
transactions).  The period query groups the same join by the period
truncation of the transaction date and computes `COUNT(DISTINCT st.id)`,
`COALESCE(SUM(st.total_amount), 0)` — note: no `DISTINCT`, one summand per
joined line-item row — and `COALESCE(SUM(sti.quantity), 0)`, ordered by
bucket date ascending. -/
def getSalesReport (input : SalesReportInput) (s : Store) : SalesReport :=
  let startMs := startOfDayMs input.start_date
  let endMs := endOfDayMs (resolveEndDate input)
  let rows := qualifyingRows s startMs endMs
  let totalTransactions := (((rows.map (fun r => r.1.id)).dedup).length : Int)
  let totalRevenue := ((rows.map (fun r => r.1.total_amount)).dedup).sum
  let totalItemsSold := (rows.map (fun r => r.2.quantity)).sum
  let keys := ((rows.map (fun r => bucketKey input.period r.1.transaction_date)).dedup).insertionSort rataLe
  { summary :=
      { total_transactions := totalTransactions
        total_revenue := totalRevenue
        total_items_sold := totalItemsSold
        average_transaction_value :=
          if 0 < totalTransactions then (totalRevenue : Rat) / (totalTransactions : Rat) else 0 }
    data := keys.map (fun k =>
      let group := rows.filter (fun r => bucketKey input.period r.1.transaction_date == k)
      { date := dateOfRata k
        total_transactions := (((group.map (fun r => r.1.id)).dedup).length : Int)
        total_revenue := (group.map (fun r => r.1.total_amount)).sum
        total_items_sold := (group.map (fun r => r.2.quantity)).sum }) }

/-- The revenue rule of the specification: the sum of `total_amount` over
the **distinct qualifying transactions** (one summand per transaction id,
never per line item, never merging different transactions with equal
amounts). -/
def perTransactionRevenue (s : Store) (startMs endMs : Int) : Int :=
  ((((qualifyingRows s startMs endMs).map (fun r => r.1)).dedup).map
      (fun t => t.total_amount)).sum

/-- Input of `updateProduct` (`schema.ts`: `updateProductInputSchema`): all
fields but the id are optional; `description` can be provided as null, so it
is an optional nullable field. -/
structure UpdateProductInput where
  id : Int
  name : Option String
  description : Option (Option String)
  price : Option Int
  stock_quantity : Option Int
  min_stock_threshold : Option Int
deriving Repr, DecidableEq

/-- The zod constraints of `updateProductInputSchema`: a provided name is
non-empty, a provided price positive, provided stock and threshold
non-negative. -/
def UpdateProductInput.Valid (input : UpdateProductInput) : Prop :=
  (∀ n ∈ input.name, n ≠ "") ∧
  (∀ q ∈ input.price, 0 < q) ∧
  (∀ q ∈ input.stock_quantity, 0 ≤ q) ∧
  (∀ q ∈ input.min_stock_threshold, 0 ≤ q)

instance (input : UpdateProductInput) : Decidable input.Valid := by
  unfold UpdateProductInput.Valid; infer_instance

/-- `update_product.ts`: check the product exists (else throw
`productNotFound`), then update exactly the provided fields, always
refreshing `updated_at`, and return the updated row. -/
def updateProduct (input : UpdateProductInput) (now : Int) (s : Store) :
    Except StoreError Product × Store :=
  match s.products.find? (fun p => p.id == input.id) with
  | none => (.error (.productNotFound input.id), s)
  | some existingProduct =>
    let applyUpdate := fun (p : Product) =>
      { p with
        updated_at := now
        name := input.name.getD p.name
        description := input.description.getD p.description
        price := input.price.getD p.price
        stock_quantity := input.stock_quantity.getD p.stock_quantity
        min_stock_threshold := input.min_stock_threshold.getD p.min_stock_threshold }
    (.ok (applyUpdate existingProduct),
     { s with products :=
        s.products.map (fun p => if p.id == input.id then applyUpdate p else p) })

/-- Input of `createProduct` (`schema.ts`: `createProductInputSchema`). -/
structure CreateProductInput where
  name : String
  description : Option String
  price : Int
  stock_quantity : Int
  min_stock_threshold : Int
deriving Repr, DecidableEq

/-- The zod constraints of `createProductInputSchema`: non-empty name,
positive price, non-negative stock and threshold. -/
def CreateProductInput.Valid (input : CreateProductInput) : Prop :=
  input.name ≠ "" ∧ 0 < input.price ∧ 0 ≤ input.stock_quantity ∧
    0 ≤ input.min_stock_threshold

instance (input : CreateProductInput) : Decidable input.Valid := by
  unfold CreateProductInput.Valid; infer_instance

/-- Modelled from the spec: the handler file `create_product.ts` is imported
by `index.ts` and exercised by `create_product.test.ts` but is not part of
the source tree.  Per §4.5 / §6 of the spec it is the plain catalog insert:
a new row with the validated fields, a fresh surrogate id and fresh
timestamps. -/
def createProduct (input : CreateProductInput) (now : Int) (s : Store) :
    Except StoreError Product × Store :=
  let p : Product :=
    { id := s.nextProductId
      name := input.name
      description := input.description
      price := input.price
      stock_quantity := input.stock_quantity
      min_stock_threshold := input.min_stock_threshold
      created_at := now
      updated_at := now }
  (.ok p, { s with products := s.products ++ [p], nextProductId := s.nextProductId + 1 })

/-- One requested line of a sale (`schema.ts`:
`createSalesTransactionInputSchema`). -/
structure SaleItemInput where
  product_id : Int
  quantity : Int
deriving Repr, DecidableEq

/-- Input of `createSalesTransaction`. -/
structure CreateSalesTransactionInput where
  items : List SaleItemInput
  notes : Option String
deriving Repr, DecidableEq

/-- The zod constraints of `createSalesTransactionInputSchema`: at least one
item, every quantity a positive integer. -/
def CreateSalesTransactionInput.Valid (input : CreateSalesTransactionInput) : Prop :=
  input.items ≠ [] ∧ ∀ i ∈ input.items, 0 < i.quantity

instance (input : CreateSalesTransactionInput) : Decidable input.Valid := by
  unfold CreateSalesTransactionInput.Valid; infer_instance

/-- Total quantity requested for one product across the items of a sale
request (a request may mention a product id more than once). -/
def requestedQty (items : List SaleItemInput) (pid : Int) : Int :=
  ((items.filter (fun i => i.product_id == pid)).map (fun i => i.quantity)).sum

/-- §4.1 step 1: the distinct product ids referenced by the request. -/
def requestedIds (input : CreateSalesTransactionInput) : List Int :=
  (input.items.map (fun i => i.product_id)).dedup

/-- §4.1 step 2: the requested ids with no matching catalog row. -/
def missingIds (input : CreateSalesTransactionInput) (s : Store) : List Int :=
  (requestedIds input).filter
    (fun pid => (s.products.find? (fun p => p.id == pid)).isNone)

/-- §4.1 step 3: the first product (if any) whose total requested quantity
exceeds its current stock, as the error to throw; evaluated over all
requested products before any write. -/
def stockViolation (input : CreateSalesTransactionInput) (s : Store) :
    Option StoreError :=
  (requestedIds input).findSome? (fun pid =>
    (s.products.find? (fun p => p.id == pid)).bind (fun p =>
      if p.stock_quantity < requestedQty input.items pid then
        some (StoreError.insufficientStockSale p.name p.stock_quantity
          (requestedQty input.items pid))
      else none))

/-- The fully hydrated response of a sale commit (`schema.ts`:
`transactionWithItemsSchema`): the header plus its line items. -/
structure TransactionWithItems where
  id : Int
  transaction_date : Int
  total_amount : Int
  notes : Option String
  created_at : Int
  items : List SalesTransactionItem
deriving Repr, DecidableEq

/-- The line item a sale commit persists for requested item `i` (the
`idx`-th item of the request): product name and unit price snapshotted from
the live catalog row, `subtotal = unit_price * quantity`.  `none` when the
product id is absent (that case is unreachable after the missing-id
check). -/
def mkLineItem (s : Store) (now : Int) (idx : Nat) (i : SaleItemInput) :
    Option SalesTransactionItem :=
  (s.products.find? (fun p => p.id == i.product_id)).map (fun p =>
    { id := s.nextItemId + (idx : Int)
      transaction_id := s.nextTransactionId
      product_id := i.product_id
      product_name := p.name
      quantity := i.quantity
      unit_price := p.price
      subtotal := p.price * i.quantity
      created_at := now })

/-- §4.1 step 5: the line items persisted for the request, one per
requested item. -/
def saleLineItems (input : CreateSalesTransactionInput) (now : Int)
    (s : Store) : List SalesTransactionItem :=
  input.items.enum.filterMap (fun x => mkLineItem s now x.1 x.2)

/-- §4.1 steps 4-5: the transaction header, with `total_amount` the sum of
the line subtotals. -/
def saleHeader (input : CreateSalesTransactionInput) (now : Int)
    (s : Store) : SalesTransaction :=
  { id := s.nextTransactionId
    transaction_date := now
    total_amount := ((saleLineItems input now s).map (fun li => li.subtotal)).sum
    notes := input.notes
    created_at := now }

/-- §4.1 step 5: the catalog after the debit — every product referenced by
the request loses its total requested quantity and gets a fresh update
timestamp; every other product is untouched. -/
def saleDebit (input : CreateSalesTransactionInput) (now : Int)
    (s : Store) : List Product :=
  s.products.map (fun p =>
    if input.items.any (fun i => i.product_id == p.id) then
      { p with stock_quantity := p.stock_quantity - requestedQty input.items p.id
               updated_at := now }
    else p)

/-- Modelled from the spec: the handler file `create_sales_transaction.ts`
is imported by `index.ts` and exercised by `create_sales_transaction.test.ts`
but is not part of the source tree.  This follows §4.1 of the spec step by
step: reject an empty item list before any store access; collect the
distinct requested product ids; fail with `productsNotFound` listing every
absent id; fail with `insufficientStockSale` when the quantity requested
for some product exceeds its current stock (reading §4.1 step 3 together
with §8, the comparison uses the total requested quantity of the product,
evaluated for all items before any write); otherwise atomically insert the
header with `total_amount` the sum of the line subtotals, insert one line
item per requested item snapshotting live name and price, and decrement
each referenced product's stock by its requested quantity, refreshing its
update timestamp.  Every failure returns the store unchanged (the
transactional rollback of §4.1). -/
def createSalesTransaction (input : CreateSalesTransactionInput) (now : Int)
    (s : Store) : Except StoreError TransactionWithItems × Store :=
  if input.items.isEmpty then (.error .emptyItemList, s)
  else if (missingIds input s).isEmpty then
    match stockViolation input s with
    | some e => (.error e, s)
    | none =>
      let lineItems := saleLineItems input now s
      let header := saleHeader input now s
      (.ok
        { id := header.id
          transaction_date := header.transaction_date
          total_amount := header.total_amount
          notes := header.notes
          created_at := header.created_at
          items := lineItems },
       { s with
          products := saleDebit input now s
          transactions := s.transactions ++ [header]
          items := s.items ++ lineItems
          nextTransactionId := s.nextTransactionId + 1
          nextItemId := s.nextItemId + (lineItems.length : Int) })
  else (.error (.productsNotFound (missingIds input s)), s)

/-- §3 invariant: every catalog row carries a non-negative stock. -/
def StockInv (s : Store) : Prop :=
  ∀ p ∈ s.products, 0 ≤ p.stock_quantity

instance (s : Store) : Decidable (StockInv s) := by
  unfold StockInv; infer_instance

/-- Catalog fixture mirroring `createTestProducts` of
`create_sales_transaction.test.ts` (prices 25.50, 15.75, 10.00 in cents). -/
def sampleProduct1 : Product :=
  { id := 1, name := "Test Product 1", description := some "First test product"
    price := 2550, stock_quantity := 100, min_stock_threshold := 10
    created_at := 0, updated_at := 0 }

/-- Second catalog fixture. -/
def sampleProduct2 : Product :=
  { id := 2, name := "Test Product 2", description := some "Second test product"
    price := 1575, stock_quantity := 50, min_stock_threshold := 5
    created_at := 0, updated_at := 0 }

/-- Third catalog fixture: 2 in stock, threshold 5. -/
def sampleProduct3 : Product :=
  { id := 3, name := "Low Stock Product", description := some "Product with low stock"
    price := 1000, stock_quantity := 2, min_stock_threshold := 5
    created_at := 0, updated_at := 0 }

/-- A store holding the three fixture products and empty ledger. -/
def sampleStore : Store :=
  { products := [sampleProduct1, sampleProduct2, sampleProduct3]
    transactions := [], items := []
    nextProductId := 4, nextTransactionId := 1, nextItemId := 1 }

/-- 2024-03-05, the day of the report fixture. -/
def reportDate : Date := { year := 2024, month := 2, day := 5 }

/-- A timestamp one hour into 2024-03-05. -/
def reportMs : Int := startOfDayMs reportDate + 3600000

/-- Report fixture: transaction 1, total 300.00, committed on 2024-03-05. -/
def reportTxA : SalesTransaction :=
  { id := 1, transaction_date := reportMs, total_amount := 30000
    notes := none, created_at := reportMs }

/-- Report fixture: transaction 2, total 300.00 as well (same amount,
distinct transaction), one minute later on the same day. -/
def reportTxB : SalesTransaction :=
  { id := 2, transaction_date := reportMs + 60000, total_amount := 30000
    notes := none, created_at := reportMs }

/-- First line item of transaction 1 (quantity 2). -/
def reportItem1 : SalesTransactionItem :=
  { id := 1, transaction_id := 1, product_id := 1, product_name := "A"
    quantity := 2, unit_price := 10000, subtotal := 20000, created_at := reportMs }

/-- Second line item of transaction 1 (quantity 1). -/
def reportItem2 : SalesTransactionItem :=
  { id := 2, transaction_id := 1, product_id := 2, product_name := "B"
    quantity := 1, unit_price := 10000, subtotal := 10000, created_at := reportMs }

/-- The single line item of transaction 2 (quantity 3). -/
def reportItem3 : SalesTransactionItem :=
  { id := 3, transaction_id := 2, product_id := 1, product_name := "A"
    quantity := 3, unit_price := 10000, subtotal := 30000, created_at := reportMs }

/-- Ledger fixture: two distinct transactions of equal total 300.00 on the
same day, the first with two line items, the second with one. -/
def reportStore : Store :=
  { products := []
    transactions := [reportTxA, reportTxB]
    items := [reportItem1, reportItem2, reportItem3]
    nextProductId := 1, nextTransactionId := 3, nextItemId := 4 }

/-- The multi-item sale request of the test-suite: 2 of product 1 and 4 of
product 2. -/
def sampleSaleInput : CreateSalesTransactionInput :=
  { items := [{ product_id := 1, quantity := 2 }, { product_id := 2, quantity := 4 }]
    notes := some "Multi-item transaction" }

/-- The transaction `sampleSaleInput` commits against `sampleStore` at
time 777: total 114.00 = 2 x 25.50 + 4 x 15.75. -/
def sampleSaleResult : TransactionWithItems :=
  { id := 1, transaction_date := 777, total_amount := 11400
    notes := some "Multi-item transaction", created_at := 777
    items :=
      [{ id := 1, transaction_id := 1, product_id := 1
         product_name := "Test Product 1", quantity := 2, unit_price := 2550
         subtotal := 5100, created_at := 777 },
       { id := 2, transaction_id := 1, product_id := 2
         product_name := "Test Product 2", quantity := 4, unit_price := 1575
         subtotal := 6300, created_at := 777 }] }

/-- A sale request referencing the absent product ids 998 and 999 next to
the valid id 1. -/
def missingSaleInput : CreateSalesTransactionInput :=
  { items := [{ product_id := 1, quantity := 1 }, { product_id := 998, quantity := 1 },
      { product_id := 999, quantity := 1 }]
    notes := none }

theorem find?_map_update {l : List Product} {pid : Int} {p : Product}
    (f : Product → Product) (hf : (f p).id = p.id)
    (h : l.find? (fun q => q.id == pid) = some p) :
    (l.map (fun q => if q.id == pid then f q else q)).find?
        (fun q => q.id == pid) = some (f p) := by
  induction l with
  | nil => simp at h
  | cons a t ih =>
    by_cases ha : (a.id == pid) = true
    · obtain rfl : a = p := by simpa [List.find?_cons, ha] using h
      have hfa : ((f a).id == pid) = true := by rw [hf]; exact ha
      simp only [List.map_cons, List.find?_cons, if_pos ha]
      rw [hfa]
    · have h2 : List.find? (fun q => q.id == pid) t = some p := by
        simpa [List.find?_cons, ha] using h
      have hb : (a.id == pid) = false := by simpa using ha
      simp only [List.map_cons, List.find?_cons, if_neg ha]
      rw [hb]
      exact ih h2

/-- C10: the result of `updateStock` — returned value and resulting store —
does not depend on the optional `reason` argument: `reason` is never read,
never persisted and never influences control flow. -/
theorem updateStock_independent_of_reason (pid change : Int)
    (r1 r2 : Option String) (now : Int) (s : Store) :
    updateStock { product_id := pid, quantity_change := change, reason := r1 } now s =
      updateStock { product_id := pid, quantity_change := change, reason := r2 } now s := rfl

/-- C5 (refuted): when `end_date` is omitted `get_sales_report.ts` does not
derive the documented end date for the `yearly` and `monthly` periods.  For
a yearly report starting 2023-03-15 (`⟨2023, 2, 15⟩` with 0-based months)
it runs `setFullYear(2024)` then `setDate(0)`, landing on 2024-02-29
(`⟨2024, 1, 29⟩`) instead of the last calendar day of the start date's
year, 2023-12-31 (`⟨2023, 11, 31⟩`); for a monthly report starting
2023-01-31 it runs `setMonth(1)` (which overflows to March 3) then
`setDate(0)`, landing on 2023-02-28 instead of the last calendar day of
the start date's month, 2023-01-31.  Daily and weekly derivations agree
with the spec on these inputs. -/
theorem resolveEndDate_yearly_monthly_diverges :
    resolveEndDate ⟨.yearly, ⟨2023, 2, 15⟩, none⟩ = ⟨2024, 1, 29⟩ ∧
    specEndDate ⟨.yearly, ⟨2023, 2, 15⟩, none⟩ = ⟨2023, 11, 31⟩ ∧
    resolveEndDate ⟨.monthly, ⟨2023, 0, 31⟩, none⟩ = ⟨2023, 1, 28⟩ ∧
    specEndDate ⟨.monthly, ⟨2023, 0, 31⟩, none⟩ = ⟨2023, 0, 31⟩ ∧
    resolveEndDate ⟨.daily, ⟨2023, 2, 15⟩, none⟩ =
      specEndDate ⟨.daily, ⟨2023, 2, 15⟩, none⟩ ∧
    resolveEndDate ⟨.weekly, ⟨2023, 0, 30⟩, none⟩ =
      specEndDate ⟨.weekly, ⟨2023, 0, 30⟩, none⟩ := by decide

/-- C4 (refuted): on a ledger with two distinct transactions of equal
total 300.00 on 2024-03-05 — the first with two line items, the second
with one — the summary `total_revenue` of `get_sales_report.ts` is 300.00
(`SUM(DISTINCT st.total_amount)` collapses the two equal amounts) and the
daily bucket's `total_revenue` is 900.00 (`SUM(st.total_amount)` over the
line-item join counts the header amount once per line item), while the
per-transaction-once revenue the claim requires is 600.00; the distinct
transaction count itself is correctly 2. -/
theorem salesReport_revenue_rule_diverges :
    (getSalesReport ⟨.daily, reportDate, some reportDate⟩ reportStore).summary.total_revenue =
      30000 ∧
    (getSalesReport ⟨.daily, reportDate, some reportDate⟩ reportStore).data.map
      (fun b => b.total_revenue) = [90000] ∧
    perTransactionRevenue reportStore (startOfDayMs reportDate) (endOfDayMs reportDate) =
      60000 ∧
    (getSalesReport ⟨.daily, reportDate, some reportDate⟩ reportStore).summary.total_transactions =
      2 := by decide

/-- C7: `getLowStockItems` returns exactly the products with
`stock_quantity ≤ min_stock_threshold` (a permutation of the filtered
catalog mapped to low-stock rows, so a product exactly at threshold is
included), each row carrying `difference = min_stock_threshold -
current_stock` (0 at threshold), and the sequence is pairwise descending
in `difference`. -/
theorem lowStock_exact_selection_sorted (s : Store) :
    (getLowStockItems s).Perm
      ((s.products.filter (fun p => p.stock_quantity ≤ p.min_stock_threshold)).map
        toLowStockItem) ∧
    List.Pairwise (fun a b => b.difference ≤ a.difference) (getLowStockItems s) ∧
    ∀ x ∈ getLowStockItems s,
      x.difference = x.min_stock_threshold - x.current_stock := by
  refine ⟨List.perm_insertionSort _ _, ?_, ?_⟩
  · have hs := List.sorted_insertionSort lowStockGe
      ((s.products.filter (fun p => p.stock_quantity ≤ p.min_stock_threshold)).map
        toLowStockItem)
    exact hs.imp (fun h => h)
  · intro x hx
    have hx2 : x ∈ (s.products.filter
        (fun p => p.stock_quantity ≤ p.min_stock_threshold)).map toLowStockItem :=
      (List.perm_insertionSort lowStockGe _).mem_iff.mp hx
    obtain ⟨p, _, rfl⟩ := List.mem_map.mp hx2
    rfl

theorem find?_eq_some_of_mem_nodup {l : List Product} {p : Product}
    (hnd : (l.map (fun q => q.id)).Nodup) (hp : p ∈ l) :
    l.find? (fun q => q.id == p.id) = some p := by
  have hsome : (l.find? (fun q => q.id == p.id)).isSome = true :=
    List.find?_isSome.mpr ⟨p, hp, by simp⟩
  obtain ⟨p0, hp0⟩ := Option.isSome_iff_exists.mp hsome
  have hp0mem : p0 ∈ l := List.mem_of_find?_eq_some hp0
  have hp0id : p0.id = p.id := by simpa using List.find?_some hp0
  rw [hp0, List.inj_on_of_nodup_map hnd hp0mem hp hp0id]

theorem createSalesTransaction_ok_inv {input : CreateSalesTransactionInput}
    {now : Int} {s : Store} {tx : TransactionWithItems} {s2 : Store}
    (h : createSalesTransaction input now s = (.ok tx, s2)) :
    tx = { id := s.nextTransactionId
           transaction_date := now
           total_amount := ((saleLineItems input now s).map (fun li => li.subtotal)).sum
           notes := input.notes
           created_at := now
           items := saleLineItems input now s } ∧
    s2 = { products := saleDebit input now s
           transactions := s.transactions ++ [saleHeader input now s]
           items := s.items ++ saleLineItems input now s
           nextProductId := s.nextProductId
           nextTransactionId := s.nextTransactionId + 1
           nextItemId := s.nextItemId + ((saleLineItems input now s).length : Int) } ∧
    missingIds input s = [] ∧ stockViolation input s = none := by
  unfold createSalesTransaction at h
  split at h
  · simp at h
  · split at h
    · split at h
      · simp at h
      · rw [Prod.mk.injEq] at h
        obtain ⟨h1, h2⟩ := h
        refine ⟨?_, h2.symm, ?_, ?_⟩
        · have := Except.ok.inj h1
          exact this.symm
        · rename_i hm _ _
          exact List.isEmpty_iff.mp hm
        · rename_i hv
          exact hv
    · simp at h

theorem createSalesTransaction_error_snd {input : CreateSalesTransactionInput}
    {now : Int} {s : Store} {e : StoreError} {s2 : Store}
    (h : createSalesTransaction input now s = (.error e, s2)) : s2 = s := by
  unfold createSalesTransaction at h
  split at h
  · exact (Prod.mk.injEq _ _ _ _ ▸ h).2.symm
  · split at h
    · split at h
      · exact (Prod.mk.injEq _ _ _ _ ▸ h).2.symm
      · simp at h
    · exact (Prod.mk.injEq _ _ _ _ ▸ h).2.symm

theorem mem_requestedIds {input : CreateSalesTransactionInput} {pid : Int} :
    pid ∈ requestedIds input ↔ ∃ i ∈ input.items, i.product_id = pid := by
  unfold requestedIds
  rw [List.mem_dedup, List.mem_map]

theorem mem_missingIds_iff {input : CreateSalesTransactionInput} {s : Store} {pid : Int} :
    pid ∈ missingIds input s ↔
      ((∃ i ∈ input.items, i.product_id = pid) ∧ ∀ p ∈ s.products, p.id ≠ pid) := by
  unfold missingIds
  rw [List.mem_filter]
  constructor
  · rintro ⟨hmem, hnone⟩
    refine ⟨mem_requestedIds.mp hmem, ?_⟩
    intro p hp
    have hfn : s.products.find? (fun q => q.id == pid) = none := by
      cases hf : s.products.find? (fun q => q.id == pid) with
      | none => rfl
      | some q => rw [hf] at hnone; simp at hnone
    simpa using List.find?_eq_none.mp hfn p hp
  · rintro ⟨hreq, habs⟩
    refine ⟨mem_requestedIds.mpr hreq, ?_⟩
    have hfn : s.products.find? (fun q => q.id == pid) = none :=
      List.find?_eq_none.mpr (fun q hq => by simpa using habs q hq)
    simp [hfn]

theorem requestedQty_ge {input : CreateSalesTransactionInput} {i : SaleItemInput}
    (hi : i ∈ input.items) (hq : ∀ j ∈ input.items, 0 < j.quantity) :
    i.quantity ≤ requestedQty input.items i.product_id := by
  unfold requestedQty
  apply List.single_le_sum
  · intro x hx
    obtain ⟨j, hj, rfl⟩ := List.mem_map.mp hx
    exact le_of_lt (hq j (List.mem_filter.mp hj).1)
  · exact List.mem_map.mpr ⟨i, List.mem_filter.mpr ⟨hi, by simp⟩, rfl⟩

theorem stock_check_of_none {input : CreateSalesTransactionInput} {s : Store}
    (hsv : stockViolation input s = none)
    {p : Product} (hfind : s.products.find? (fun q => q.id == p.id) = some p)
    (hpid : p.id ∈ requestedIds input) :
    requestedQty input.items p.id ≤ p.stock_quantity := by
  unfold stockViolation at hsv
  have h1 := List.findSome?_eq_none.mp hsv p.id hpid
  rw [hfind] at h1
  by_contra hle
  rw [Int.not_le] at hle
  simp [hle] at h1

/-- C6: a sale request referencing one or more product ids absent from the
catalog fails with `productsNotFound` carrying exactly the set of missing
ids — every requested id with no catalog row, not just the first — and the
store is returned unchanged (no rows written). -/
theorem saleCommit_missing_ids_complete (input : CreateSalesTransactionInput)
    (now : Int) (s : Store) (hne : input.items ≠ [])
    (hmiss : ∃ i ∈ input.items, ∀ p ∈ s.products, p.id ≠ i.product_id) :
    createSalesTransaction input now s =
      (.error (.productsNotFound (missingIds input s)), s) ∧
    missingIds input s ≠ [] ∧
    ∀ pid, pid ∈ missingIds input s ↔
      ((∃ i ∈ input.items, i.product_id = pid) ∧ ∀ p ∈ s.products, p.id ≠ pid) := by
  obtain ⟨i, hi, habs⟩ := hmiss
  have hmem : i.product_id ∈ missingIds input s :=
    mem_missingIds_iff.mpr ⟨⟨i, hi, rfl⟩, habs⟩
  have hnil : missingIds input s ≠ [] := List.ne_nil_of_mem hmem
  refine ⟨?_, hnil, fun pid => mem_missingIds_iff⟩
  unfold createSalesTransaction
  rw [if_neg (by simpa [List.isEmpty_iff] using hne),
    if_neg (by simpa [List.isEmpty_iff] using hnil)]

/-- Witness for C6: against the three-product fixture store, the request
referencing ids 1, 998 and 999 fails with `productsNotFound [998, 999]`
(both absent ids, not just the first), leaving the store unchanged. -/
theorem saleCommit_missing_ids_complete_witness :
    createSalesTransaction missingSaleInput 0 sampleStore =
      (.error (.productsNotFound (missingIds missingSaleInput sampleStore)), sampleStore) ∧
    missingIds missingSaleInput sampleStore = [998, 999] :=
  ⟨(saleCommit_missing_ids_complete missingSaleInput 0 sampleStore (by decide)
      ⟨{ product_id := 998, quantity := 1 }, by decide, by decide⟩).1,
   by decide⟩

/-- C1: a sale-commit request that fails — because some referenced product
id is absent from the catalog, or because some item's quantity exceeds the
available stock of its product — returns an error together with the store
exactly as it was: no transaction header, no line items, no stock change.
The quantity hypothesis is the zod validation of the input (positive
quantities); the `Nodup` hypothesis is the primary-key uniqueness of
product ids. -/
theorem saleCommit_failure_rolls_back (input : CreateSalesTransactionInput)
    (now : Int) (s : Store)
    (hq : ∀ i ∈ input.items, 0 < i.quantity)
    (hnd : (s.products.map (fun p => p.id)).Nodup)
    (hfail : (∃ i ∈ input.items, ∀ p ∈ s.products, p.id ≠ i.product_id) ∨
             (∃ i ∈ input.items, ∃ p ∈ s.products,
               p.id = i.product_id ∧ p.stock_quantity < i.quantity)) :
    ∃ e, createSalesTransaction input now s = (.error e, s) := by
  have hne : input.items ≠ [] := by
    rcases hfail with ⟨i, hi, -⟩ | ⟨i, hi, -⟩ <;> exact List.ne_nil_of_mem hi
  by_cases hm : missingIds input s = []
  · rcases hfail with ⟨i, hi, habs⟩ | ⟨i, hi, p, hp, hpid, hlt⟩
    · exact absurd hm
        (List.ne_nil_of_mem (mem_missingIds_iff.mpr ⟨⟨i, hi, rfl⟩, habs⟩))
    · have hfind : s.products.find? (fun q => q.id == p.id) = some p :=
        find?_eq_some_of_mem_nodup hnd hp
      have hpidmem : p.id ∈ requestedIds input :=
        mem_requestedIds.mpr ⟨i, hi, hpid.symm⟩
      have hviol : p.stock_quantity < requestedQty input.items p.id := by
        have := requestedQty_ge hi hq
        rw [← hpid] at this
        exact lt_of_lt_of_le hlt this
      cases hsv : stockViolation input s with
      | none => exact absurd (stock_check_of_none hsv hfind hpidmem) (Int.not_le.mpr hviol)
      | some e =>
        refine ⟨e, ?_⟩
        unfold createSalesTransaction
        rw [if_neg (by simpa [List.isEmpty_iff] using hne),
          if_pos (List.isEmpty_iff.mpr hm), hsv]
  · refine ⟨.productsNotFound (missingIds input s), ?_⟩
    unfold createSalesTransaction
    rw [if_neg (by simpa [List.isEmpty_iff] using hne),
      if_neg (by simpa [List.isEmpty_iff] using hm)]

/-- Witness for C1: requesting 5 units of the fixture product with only 2
in stock fails and returns the fixture store unchanged. -/
theorem saleCommit_failure_rolls_back_witness :
    ∃ e, createSalesTransaction
        { items := [{ product_id := 3, quantity := 5 }], notes := none } 0 sampleStore =
      (.error e, sampleStore) :=
  saleCommit_failure_rolls_back
    { items := [{ product_id := 3, quantity := 5 }], notes := none } 0 sampleStore
    (by decide) (by decide)
    (Or.inr ⟨{ product_id := 3, quantity := 5 }, by decide, sampleProduct3,
      by decide, by decide, by decide⟩)

/-- C3: a successful sale commit persists a header whose `total_amount` is
exactly the sum of the persisted line-item subtotals, appends exactly its
line items to the ledger, and every line item's `unit_price` is the live
catalog price of its product at commit time (with the snapshotted name),
its `subtotal` being `quantity * unit_price`. -/
theorem saleCommit_total_is_sum_of_subtotals (input : CreateSalesTransactionInput)
    (now : Int) (s : Store) (tx : TransactionWithItems) (s2 : Store)
    (h : createSalesTransaction input now s = (.ok tx, s2)) :
    tx.total_amount = (tx.items.map (fun li => li.subtotal)).sum ∧
    s2.transactions = s.transactions ++
      [{ id := tx.id, transaction_date := tx.transaction_date
         total_amount := tx.total_amount, notes := tx.notes
         created_at := tx.created_at }] ∧
    s2.items = s.items ++ tx.items ∧
    ∀ li ∈ tx.items, ∃ p, p ∈ s.products ∧ p.id = li.product_id ∧
      li.unit_price = p.price ∧ li.product_name = p.name ∧
      li.subtotal = li.quantity * li.unit_price := by
  obtain ⟨htx, hs2, -, -⟩ := createSalesTransaction_ok_inv h
  subst htx
  subst hs2
  refine ⟨rfl, rfl, rfl, ?_⟩
  intro li hli
  simp only at hli
  unfold saleLineItems at hli
  obtain ⟨x, _, hmk⟩ := List.mem_filterMap.mp hli
  unfold mkLineItem at hmk
  obtain ⟨p, hfind, hli2⟩ := Option.map_eq_some'.mp hmk
  have hpmem : p ∈ s.products := List.mem_of_find?_eq_some hfind
  have hpid : p.id = x.2.product_id := by simpa using List.find?_some hfind
  subst hli2
  exact ⟨p, hpmem, hpid, rfl, rfl, Int.mul_comm _ _⟩

/-- Witness for C3: committing the fixture request (2 x 25.50 + 4 x 15.75)
yields the concrete transaction with total 114.00, equal to the sum of its
two subtotals 51.00 and 63.00, each the live price times the quantity. -/
theorem saleCommit_total_is_sum_of_subtotals_witness :
    createSalesTransaction sampleSaleInput 777 sampleStore =
      (.ok sampleSaleResult, (createSalesTransaction sampleSaleInput 777 sampleStore).2) ∧
    sampleSaleResult.total_amount =
      (sampleSaleResult.items.map (fun li => li.subtotal)).sum := by
  have h : createSalesTransaction sampleSaleInput 777 sampleStore =
      (.ok sampleSaleResult, (createSalesTransaction sampleSaleInput 777 sampleStore).2) := by
    decide
  exact ⟨h, (saleCommit_total_is_sum_of_subtotals sampleSaleInput 777 sampleStore
    sampleSaleResult _ h).1⟩

/-- C9: a successful sale commit rewrites the catalog row-by-row: row
`idx` keeps its identity, name, description, price, threshold and creation
time; when the row's product is referenced by the request its stock drops
by exactly the total quantity requested for it and its update timestamp
becomes the commit time; when it is not referenced the row is unchanged. -/
theorem saleCommit_stock_decrement_frame (input : CreateSalesTransactionInput)
    (now : Int) (s : Store) (tx : TransactionWithItems) (s2 : Store)
    (h : createSalesTransaction input now s = (.ok tx, s2)) :
    s2.products.length = s.products.length ∧
    ∀ (idx : Nat), (h1 : idx < s.products.length) → (h2 : idx < s2.products.length) →
      (s2.products[idx]).id = (s.products[idx]).id ∧
      (s2.products[idx]).name = (s.products[idx]).name ∧
      (s2.products[idx]).description = (s.products[idx]).description ∧
      (s2.products[idx]).price = (s.products[idx]).price ∧
      (s2.products[idx]).min_stock_threshold = (s.products[idx]).min_stock_threshold ∧
      (s2.products[idx]).created_at = (s.products[idx]).created_at ∧
      ((∃ i ∈ input.items, i.product_id = (s.products[idx]).id) →
        (s2.products[idx]).stock_quantity =
          (s.products[idx]).stock_quantity -
            requestedQty input.items (s.products[idx]).id ∧
        (s2.products[idx]).updated_at = now) ∧
      ((∀ i ∈ input.items, i.product_id ≠ (s.products[idx]).id) →
        s2.products[idx] = s.products[idx]) := by
  obtain ⟨-, hs2, -, -⟩ := createSalesTransaction_ok_inv h
  subst hs2
  refine ⟨by simp [saleDebit], ?_⟩
  intro idx h1 h2
  simp only [saleDebit, List.getElem_map]
  by_cases hany : (input.items.any
      (fun i => i.product_id == (s.products[idx]).id)) = true
  · rw [if_pos hany]
    refine ⟨rfl, rfl, rfl, rfl, rfl, rfl, fun _ => ⟨rfl, rfl⟩, ?_⟩
    intro habs
    obtain ⟨i, hi, hbeq⟩ := List.any_eq_true.mp hany
    exact absurd (by simpa using hbeq) (habs i hi)
  · rw [if_neg hany]
    refine ⟨rfl, rfl, rfl, rfl, rfl, rfl, ?_, fun _ => rfl⟩
    rintro ⟨i, hi, heq⟩
    exact absurd (List.any_eq_true.mpr ⟨i, hi, by simpa using heq⟩) hany

/-- Witness for C9: committing the fixture sale (2 of product 1, 4 of
product 2) against the three-product store decrements row 0's stock from
100 by 2, in particular `row 0` of the post store has stock 98. -/
theorem saleCommit_stock_decrement_frame_witness :
    createSalesTransaction sampleSaleInput 777 sampleStore =
      (.ok sampleSaleResult, (createSalesTransaction sampleSaleInput 777 sampleStore).2) ∧
    ((createSalesTransaction sampleSaleInput 777 sampleStore).2.products.get
        ⟨0, by decide⟩).stock_quantity
      = (sampleStore.products.get ⟨0, by decide⟩).stock_quantity -
        requestedQty sampleSaleInput.items ((sampleStore.products.get ⟨0, by decide⟩).id) := by
  have h : createSalesTransaction sampleSaleInput 777 sampleStore =
      (.ok sampleSaleResult, (createSalesTransaction sampleSaleInput 777 sampleStore).2) := by
    decide
  refine ⟨h, ?_⟩
  exact (((saleCommit_stock_decrement_frame sampleSaleInput 777 sampleStore
      sampleSaleResult _ h).2 0 (by decide) (by decide)).2.2.2.2.2.2.1
    ⟨{ product_id := 1, quantity := 2 }, by decide, by decide⟩).1

/-- C8: for a product found by `updateStock`, a change that would drive the
stock negative fails with `insufficientStockAdjust` carrying the current
stock and the attempted change, returning the store exactly as it was
(stock and timestamp untouched); a change keeping it non-negative persists
the new stock with a fresh update timestamp and returns the updated
product, touching neither the transactions nor the items table. -/
theorem updateStock_guard_and_persist (s : Store) (pid change now : Int)
    (r : Option String) (p : Product)
    (h : s.products.find? (fun q => q.id == pid) = some p) :
    (p.stock_quantity + change < 0 →
      updateStock { product_id := pid, quantity_change := change, reason := r } now s =
        (.error (.insufficientStockAdjust p.stock_quantity change), s)) ∧
    (0 ≤ p.stock_quantity + change →
      ∃ s2,
        updateStock { product_id := pid, quantity_change := change, reason := r } now s =
          (.ok { p with stock_quantity := p.stock_quantity + change, updated_at := now },
            s2) ∧
        s2.products.find? (fun q => q.id == pid) =
          some { p with stock_quantity := p.stock_quantity + change, updated_at := now } ∧
        s2.transactions = s.transactions ∧ s2.items = s.items) := by
  constructor
  · intro hneg
    simp only [updateStock, h]
    rw [if_pos hneg]
  · intro hpos
    have hnneg : ¬(p.stock_quantity + change < 0) := Int.not_lt.mpr hpos
    refine ⟨{ s with products := s.products.map (fun q => if q.id == pid then
        { p with stock_quantity := p.stock_quantity + change, updated_at := now }
      else q) }, ?_, ?_, rfl, rfl⟩
    · simp only [updateStock, h]
      rw [if_neg hnneg]
    · exact @find?_map_update s.products pid p
        (fun _ => { p with stock_quantity := p.stock_quantity + change, updated_at := now })
        rfl h

/-- Witness for C8 (scenario E): adjusting the 50-in-stock fixture product
by -75 fails with `insufficientStockAdjust 50 (-75)` and leaves the store
untouched. -/
theorem updateStock_guard_and_persist_witness :
    updateStock { product_id := 2, quantity_change := -75, reason := none } 99 sampleStore =
      (.error (.insufficientStockAdjust 50 (-75)), sampleStore) :=
  (updateStock_guard_and_persist sampleStore 2 (-75) 99 none sampleProduct2
    (by decide)).1 (by decide)

/-- C2: on a store whose rows all carry non-negative stock (with unique
product ids), every mutator leaves every row's stock non-negative: the
post store of `createProduct` and `updateProduct` on zod-valid input, of
`updateStock` on any input, and of `createSalesTransaction` on any input,
satisfies the invariant — each either writes a state satisfying it or
fails returning the store unchanged. -/
theorem mutators_preserve_stock_nonneg (s : Store) (hInv : StockInv s)
    (hnd : (s.products.map (fun p => p.id)).Nodup) :
    (∀ (input : CreateProductInput) (now : Int), input.Valid →
      StockInv (createProduct input now s).2) ∧
    (∀ (input : UpdateProductInput) (now : Int), input.Valid →
      StockInv (updateProduct input now s).2) ∧
    (∀ (input : UpdateStockInput) (now : Int),
      StockInv (updateStock input now s).2) ∧
    (∀ (input : CreateSalesTransactionInput) (now : Int),
      StockInv (createSalesTransaction input now s).2) := by
  refine ⟨?_, ?_, ?_, ?_⟩
  · intro input now hv q hq
    simp only [createProduct] at hq
    rcases List.mem_append.mp hq with hq | hq
    · exact hInv q hq
    · rw [List.mem_singleton.mp hq]
      exact hv.2.2.1
  · intro input now hv
    cases hf : s.products.find? (fun q1 => q1.id == input.id) with
    | none =>
      simp only [updateProduct, hf]
      exact hInv
    | some ex =>
      simp only [updateProduct, hf]
      intro q hq
      obtain ⟨p, hp, rfl⟩ := List.mem_map.mp hq
      by_cases hbe : (p.id == input.id) = true
      · rw [if_pos hbe]
        cases hsq : input.stock_quantity with
        | none => simpa [hsq] using hInv p hp
        | some v =>
          simpa [hsq] using hv.2.2.1 v (by rw [hsq]; rfl)
      · rw [if_neg hbe]
        exact hInv p hp
  · intro input now
    cases hf : s.products.find? (fun q1 => q1.id == input.product_id) with
    | none =>
      simp only [updateStock, hf]
      exact hInv
    | some ex =>
      by_cases hneg : ex.stock_quantity + input.quantity_change < 0
      · simp only [updateStock, hf]
        rw [if_pos hneg]
        exact hInv
      · simp only [updateStock, hf]
        rw [if_neg hneg]
        intro q hq
        obtain ⟨p, hp, rfl⟩ := List.mem_map.mp hq
        by_cases hbe : (p.id == input.product_id) = true
        · rw [if_pos hbe]
          exact Int.not_lt.mp hneg
        · rw [if_neg hbe]
          exact hInv p hp
  · intro input now
    cases hres : createSalesTransaction input now s with
    | mk r s2 =>
      cases r with
      | error e =>
        rw [createSalesTransaction_error_snd hres]
        exact hInv
      | ok tx =>
        obtain ⟨-, hs2, -, hsv⟩ := createSalesTransaction_ok_inv hres
        rw [hs2]
        intro q hq
        unfold saleDebit at hq
        obtain ⟨p, hp, rfl⟩ := List.mem_map.mp hq
        by_cases hany : (input.items.any (fun i => i.product_id == p.id)) = true
        · rw [if_pos hany]
          rw [Int.sub_nonneg]
          obtain ⟨i, hi, hbeq⟩ := List.any_eq_true.mp hany
          have hpid : p.id ∈ requestedIds input :=
            mem_requestedIds.mpr ⟨i, hi, by simpa using hbeq⟩
          exact stock_check_of_none hsv (find?_eq_some_of_mem_nodup hnd hp) hpid
        · rw [if_neg hany]
          exact hInv p hp

/-- Witness for C2: the fixture store satisfies the invariant, and so do
the post stores of a concrete stock adjustment and of the fixture sale
commit. -/
theorem mutators_preserve_stock_nonneg_witness :
    StockInv sampleStore ∧
    StockInv (updateStock { product_id := 3, quantity_change := -2, reason := none }
      5 sampleStore).2 ∧
    StockInv (createSalesTransaction sampleSaleInput 777 sampleStore).2 := by
  have h := mutators_preserve_stock_nonneg sampleStore (by decide) (by decide)
  exact ⟨by decide,
    h.2.2.1 { product_id := 3, quantity_change := -2, reason := none } 5,
    h.2.2.2 sampleSaleInput 777⟩
